import Mathlib

/-!
Shallow embedding of the generator-runtime study in raydot/es6_generators
(src/01_basics.js, src/03_async.js, src/README.md) and of the Driver /
AsyncRequest / combinator design its specification distills from those notes.

Conventions of the embedding:
* a JavaScript value is a `JSVal` (the examples only use numbers, strings and
  undefined);
* a pausable computation (the remaining body of a generator) is a `Comp`:
  it either terminates with a value (`ret`), terminates by raising an error
  out of the body (`raise`), or pauses emitting an `Item` with two
  continuations, one for a value delivered by `next` and one for an error
  delivered by `throw` — the throw continuation encodes the try/catch
  structure of the body around that yield;
* an emitted `Item` is either a plain value (`immediate`) or an
  AsyncRequest-like waitable carrying the outcome its producer will
  eventually settle with (`waitable`), which collapses real-time settlement
  into the tree since one computation only ever waits on one item at a time;
* the ES6 iterator protocol (it.next / done flags) is the `ItState`/`doNext`
  layer below.
-/

namespace ES6Gen

/-- JavaScript values occurring in the examples. -/
inductive JSVal : Type where
  | undefined : JSVal
  | num : Int → JSVal
  | str : String → JSVal
deriving DecidableEq, Repr

/-- Settlement outcome of an AsyncRequest (a promise in src/03_async.js):
resolved with a value or rejected with a reason. -/
inductive Outcome : Type where
  | resolved : JSVal → Outcome
  | rejected : JSVal → Outcome
deriving DecidableEq, Repr

/-- An item emitted at a suspension point: either an AsyncRequest-like
waitable (classified by the duck-type test `"then" in ret.value` in
runGenerator) or an immediate plain value. -/
inductive Item : Type where
  | waitable : Outcome → Item
  | immediate : JSVal → Item
deriving DecidableEq, Repr

/-- A PausableComputation: the remaining body of a generator.
`pause em kN kT` has emitted `em` and waits; `kN` consumes the value of the
next `next(v)` call, `kT` consumes the error of a `throw(e)` call (it is the
enclosing try/catch structure of the body at that point). `ret` is a
terminating `return`, `raise` an error leaving the body uncaught. -/
inductive Comp : Type where
  | ret : JSVal → Comp
  | raise : JSVal → Comp
  | pause : Item → (JSVal → Comp) → (JSVal → Comp) → Comp

/-- Result of one `it.next(v)` / `it.throw(e)` call on an iterator:
a yielded item with done false, a final value with done true, or an
exception propagating out of the body to the caller. -/
inductive NextRes : Type where
  | yielded : Item → NextRes
  | finished : JSVal → NextRes
  | threw : JSVal → NextRes

/-- State of an ES6 iterator handle between protocol calls. -/
inductive ItState : Type where
  | unstarted : Comp → ItState
  | suspended : (JSVal → Comp) → (JSVal → Comp) → ItState
  | terminal : ItState

/-- Run the body until it yields, returns or throws, as one protocol call
does. -/
def advance : Comp → ItState × NextRes
  | .ret v => (.terminal, .finished v)
  | .raise e => (.terminal, .threw e)
  | .pause em kN kT => (.suspended kN kT, .yielded em)

/-- `it.next(v)`: starting a generator runs the body from the top (the first
argument is discarded, as in ES6); a suspended one resumes its next
continuation with `v`; an exhausted one reports value undefined, done true
(src/01_basics.js line 93) without raising any error. -/
def doNext : ItState → JSVal → ItState × NextRes
  | .unstarted c, _ => advance c
  | .suspended kN _, v => advance (kN v)
  | .terminal, _ => (.terminal, .finished .undefined)

/-- `it.throw(e)`: delivers `e` to the throw continuation of the current
suspension point; throwing into an unstarted or exhausted iterator
propagates the error back out (src/README.md, errorHandling2). -/
def doThrow : ItState → JSVal → ItState × NextRes
  | .unstarted _, e => (.terminal, .threw e)
  | .suspended _ kT, e => advance (kT e)
  | .terminal, e => (.terminal, .threw e)

/-- Feed an iterator a list of `next` inputs and record each protocol
result, as the worked call sequences in the sources do. -/
def runNexts : ItState → List JSVal → List NextRes
  | _, [] => []
  | st, v :: vs =>
    let s := doNext st v
    s.2 :: runNexts s.1 vs

/-- A throw continuation for yields not wrapped in any try/catch: the
injected error leaves the body uncaught. -/
def noCatch : JSVal → Comp := fun e => .raise e

/-- genAsIterator from src/01_basics.js: yields 1,2,3,4,5, then returns
(undefined). -/
def genAsIterator : Comp :=
  .pause (.immediate (.num 1)) (fun _ =>
    .pause (.immediate (.num 2)) (fun _ =>
      .pause (.immediate (.num 3)) (fun _ =>
        .pause (.immediate (.num 4)) (fun _ =>
          .pause (.immediate (.num 5)) (fun _ => .ret .undefined)
            noCatch) noCatch) noCatch) noCatch) noCatch

/-- forOfLoop from src/01_basics.js: yields 1..5 and returns 6. -/
def forOfLoop : Comp :=
  .pause (.immediate (.num 1)) (fun _ =>
    .pause (.immediate (.num 2)) (fun _ =>
      .pause (.immediate (.num 3)) (fun _ =>
        .pause (.immediate (.num 4)) (fun _ =>
          .pause (.immediate (.num 5)) (fun _ => .ret (.num 6))
            noCatch) noCatch) noCatch) noCatch) noCatch

example : runNexts (.unstarted genAsIterator)
    [.undefined, .undefined, .undefined, .undefined, .undefined, .undefined, .undefined]
  = [.yielded (.immediate (.num 1)), .yielded (.immediate (.num 2)),
     .yielded (.immediate (.num 3)), .yielded (.immediate (.num 4)),
     .yielded (.immediate (.num 5)), .finished .undefined, .finished .undefined] := rfl

/-! ## The Driver (spec §4.3, §7)

src/03_async.js writes out only a driver without error handling
("Note: there is no error handling here", line 136) and for the
error-handling examples merely states "assume: runGenerator() also handles
error handling" (line 208) and that a promise rejection "will be mapped to a
generator error" (lines 240-245). The full future-returning, error-mapping
driver is therefore modelled from the spec. -/

/-- The future returned by Driver.run: eventually resolved or rejected. -/
inductive Future : Type where
  | resolved : JSVal → Future
  | rejected : JSVal → Future
deriving DecidableEq, Repr

/-- Modelled from the spec: the error-handling Driver run loop, whose code
is missing from src (src/03_async.js line 136 notes runGenerator has no
error handling and line 208 only assumes an error-handling variant).
Per §4.3: classify each emitted item; a waitable that resolves resumes the
computation with the value, a waitable that rejects resumes it by throwing
the rejection reason in at the suspension point (throwInto = the throw
continuation `kT`), an immediate value is sent back in. Per §4.3/§7
termination: the returned future resolves with the final value on
completion and rejects with the error on uncaught failure. -/
def driverRun : Comp → Future
  | .ret v => .resolved v
  | .raise e => .rejected e
  | .pause (.waitable (.resolved v)) kN _ => driverRun (kN v)
  | .pause (.waitable (.rejected e)) _ kT => driverRun (kT e)
  | .pause (.immediate v) kN _ => driverRun (kN v)

/-- Lifecycle of a computation under the Driver resumption policy
(spec §3): `Reaches c (.ok v)` means the computation reaches state
Completed(v), `Reaches c (.error e)` that it reaches Failed(e) without
recovering. -/
inductive Reaches : Comp → Except JSVal JSVal → Prop where
  | completed (v : JSVal) : Reaches (.ret v) (.ok v)
  | failed (e : JSVal) : Reaches (.raise e) (.error e)
  | onResolve {v r kN kT} : Reaches (kN v) r →
      Reaches (.pause (.waitable (.resolved v)) kN kT) r
  | onReject {e r kN kT} : Reaches (kT e) r →
      Reaches (.pause (.waitable (.rejected e)) kN kT) r
  | onImmediate {v r kN kT} : Reaches (kN v) r →
      Reaches (.pause (.immediate v) kN kT) r

/-- The error-handling example driven through runGenerator in
src/03_async.js (lines 220-238): `try { result1 = yield request(url) }
catch (err) { ... return }`. The catch branch observing `err` is modelled
by completing with the caught value. `o` is the outcome the yielded
request settles with. -/
def mainErrHandled (o : Outcome) : Comp :=
  .pause (.waitable o)
    (fun r => .ret r)
    (fun e => .ret e)

/-! ## runGenerator as written (src/03_async.js lines 137-157)

The transcription in the repository reads:
```
(function iterate(val) {
    ret = it.next(val)
    if (!ret.done) {
        if("then" in ret.value)
        ret.value.then(iterate)
    } else {
        setTimeout(function() { iterate(ret.value) }, 0)
    }
})()
```
so the `else` branch labelled "immediate value, just send right back in /
avoid synchronous recursion" is attached to `if (!ret.done)`: it runs
after the generator is done, while a yielded non-promise value falls
through both branches and nothing is scheduled at all. A promise rejection
also falls through, since `then` is given no rejection handler. The
embedding below follows that control flow exactly; `fuel` bounds how many
scheduling rounds the event loop is observed for. -/

/-- Observable behaviour of one runGenerator invocation: how many
`it.next` calls were issued within the observed rounds, and how many of
those calls returned done true. -/
structure RunObs : Type where
  calls : Nat
  doneResults : Nat
deriving DecidableEq, Repr

/-- One `iterate(val)` activation of runGenerator as written, with the
chain of follow-up activations it causes (promise `then` resumption, or
the post-done setTimeout of the misplaced else branch). A yielded
immediate value and a rejected waitable cause no follow-up activation. -/
def iterateAsWritten : Nat → ItState → JSVal → RunObs
  | 0, _, _ => ⟨0, 0⟩
  | fuel + 1, st, val =>
    let s := doNext st val
    match s.2 with
    | .finished v =>
      let r := iterateAsWritten fuel s.1 v
      ⟨r.calls + 1, r.doneResults + 1⟩
    | .yielded (.waitable (.resolved v)) =>
      let r := iterateAsWritten fuel s.1 v
      ⟨r.calls + 1, r.doneResults⟩
    | .yielded (.waitable (.rejected _)) => ⟨1, 0⟩
    | .yielded (.immediate _) => ⟨1, 0⟩
    | .threw _ => ⟨1, 0⟩

/-- runGenerator(g) as written: `it = g()` then `iterate()` with no
argument. -/
def runGenerator (fuel : Nat) (g : Comp) : RunObs :=
  iterateAsWritten fuel (.unstarted g) .undefined

/-- A generator that yields one immediate (non-promise) value and returns
what is sent back in: `function* g() { let x = yield 42; return x }`. It
has one suspension point and no promise involved. -/
def yieldsImmediate : Comp :=
  .pause (.immediate (.num 42)) (fun x => .ret x) noCatch

/-- A generator with exactly one suspension point that yields one waitable
which resolves, then returns the response, as the two-line core of *main()
in src/03_async.js does per request. -/
def yieldsOneRequest : Comp :=
  .pause (.waitable (.resolved (.str "response"))) (fun r => .ret r) noCatch

example : runGenerator 5 yieldsImmediate = ⟨1, 0⟩ := rfl
example : runGenerator 10 yieldsOneRequest = ⟨10, 9⟩ := rfl

/-! The intended control flow — what the comments inside runGenerator
(lines 149-151) and the numbered explanation at lines 159-170 describe:
the immediate-value setTimeout branch belongs to the inner classification,
and nothing runs after done — is embedded alongside for comparison. -/

/-- The loop of runGenerator as its own comments describe it: a yielded
immediate value is sent right back in via setTimeout, and a done result
ends the run. -/
def iterateAsDocumented : Nat → ItState → JSVal → RunObs
  | 0, _, _ => ⟨0, 0⟩
  | fuel + 1, st, val =>
    let s := doNext st val
    match s.2 with
    | .finished _ => ⟨1, 1⟩
    | .yielded (.waitable (.resolved v)) =>
      let r := iterateAsDocumented fuel s.1 v
      ⟨r.calls + 1, r.doneResults⟩
    | .yielded (.immediate v) =>
      let r := iterateAsDocumented fuel s.1 v
      ⟨r.calls + 1, r.doneResults⟩
    | .yielded (.waitable (.rejected _)) => ⟨1, 0⟩
    | .threw _ => ⟨1, 0⟩

/-- runGenerator with the brace placement its comments describe. -/
def runGeneratorDocumented (fuel : Nat) (g : Comp) : RunObs :=
  iterateAsDocumented fuel (.unstarted g) .undefined

example : runGeneratorDocumented 5 yieldsImmediate = ⟨2, 1⟩ := rfl
example : runGeneratorDocumented 10 yieldsOneRequest = ⟨2, 1⟩ := rfl

/-! ## Delegation (yield*, src/README.md lines 74-150) -/

/-- `yield* inner` inside a body whose remainder is `k`: every suspension
of the inner computation is forwarded outward unchanged, with both the
next and the throw continuation routed through the inner computation
first; when the inner computation returns `v`, the outer body resumes at
the delegating point with `v` as the value of the `yield*` expression; an
error leaving the inner body uncaught leaves the delegation (errors the
outer body would catch around the `yield*` are part of `k`-side structure
in the concrete embeddings below). -/
def delegate : Comp → (JSVal → Comp) → Comp
  | .ret v, k => k v
  | .raise e, _ => .raise e
  | .pause em kN kT, k =>
    .pause em (fun i => delegate (kN i) k) (fun e => delegate (kT e) k)

/-- External observation of driving a computation with a list of
resumption inputs: the items emitted in order, the terminal result if one
was reached (none while still suspended awaiting input), and the inputs
left unconsumed. -/
def observe : Comp → List JSVal → List Item × Option (Except JSVal JSVal) × List JSVal
  | .ret v, ins => ([], some (.ok v), ins)
  | .raise e, ins => ([], some (.error e), ins)
  | .pause em _ _, [] => ([em], none, [])
  | .pause em kN _, i :: ins =>
    let o := observe (kN i) ins
    (em :: o.1, o.2)

/-- firstFunction from src/README.md: `let z = yield 3; let w = yield 4;
console.log(...)` — returns undefined. -/
def firstFunction : Comp :=
  .pause (.immediate (.num 3)) (fun _ =>
    .pause (.immediate (.num 4)) (fun _ => .ret .undefined) noCatch) noCatch

/-- secondFunction from src/README.md: `let x = yield 1; let y = yield 2;
yield* firstFunction(); let v = yield 5; console.log(...)`. -/
def secondFunction : Comp :=
  .pause (.immediate (.num 1)) (fun _ =>
    .pause (.immediate (.num 2)) (fun _ =>
      delegate firstFunction (fun _ =>
        .pause (.immediate (.num 5)) (fun _ => .ret .undefined) noCatch))
      noCatch) noCatch

/-- catcher from src/README.md: `yield 2; yield 3; return "im catcher"`. -/
def catcher : Comp :=
  .pause (.immediate (.num 2)) (fun _ =>
    .pause (.immediate (.num 3)) (fun _ => .ret (.str "im catcher"))
      noCatch) noCatch

/-- The remainder of pitcher after its `yield*`: `let v = yield* ...;
console.log("v:", v); yield 4` — the received value `v` is kept as the
final value to make the log observable. -/
def pitcherAfter : JSVal → Comp := fun v =>
  .pause (.immediate (.num 4)) (fun _ => .ret v) noCatch

/-- pitcher from src/README.md: `yield 1; let v = yield* catcher(); ...;
yield 4`. -/
def pitcher : Comp :=
  .pause (.immediate (.num 1)) (fun _ => delegate catcher pitcherAfter)
    noCatch

example : runNexts (.unstarted pitcher) [.undefined, .undefined, .undefined, .undefined, .undefined]
  = [.yielded (.immediate (.num 1)), .yielded (.immediate (.num 2)),
     .yielded (.immediate (.num 3)), .yielded (.immediate (.num 4)),
     .finished (.str "im catcher")] := rfl

/-! ## for...of consumption (src/01_basics.js lines 123-145) -/

/-- Run a computation the way a `for...of` loop does: call next with no
argument (undefined) each round, collect `value` exactly when done is
false, and stop at the first done true without reading its value into the
iteration. -/
def forOfCollect : Comp → List Item
  | .ret _ => []
  | .raise _ => []
  | .pause em kN _ => em :: forOfCollect (kN .undefined)

/-- Replace the value of every `return` leaf of a computation, leaving all
emitted items, all continuations and all error leaves unchanged. -/
def replaceFinal : Comp → JSVal → Comp
  | .ret _, w => .ret w
  | .raise e, _ => .raise e
  | .pause em kN kT, w =>
    .pause em (fun i => replaceFinal (kN i) w) (fun e => replaceFinal (kT e) w)

/-! ## The caching request helper (src/03_async.js lines 80-95)

```
var cache = {}
function request(url) {
    if (cache[url]) {
        setTimeout(function() { it.next(cache[url]) }, 0)
    } else {
        makeAjaxCall(url, function(response) {
            cache[url] = response
            it.next(response)
        })
    }
}
```
The cache maps a url to a response; the entry is written only inside the
makeAjaxCall callback, at settlement. Calling `request` either schedules a
zero-delay timer delivering the cached response (hit) or issues one
underlying makeAjaxCall (miss); either way the function returns before any
delivery, and the generator pauses at its `yield request(...)`. -/

/-- What one call to the caching `request` sets in motion: a zero-delay
timer that will deliver `v` once the current synchronous run has paused,
or one underlying makeAjaxCall for `url` whose callback delivers later. -/
inductive Delivery : Type where
  | deferredTimer : Nat → JSVal → Delivery
  | ajaxCallback : String → Delivery
deriving DecidableEq, Repr

/-- The mutable surroundings of the caching `request`: the response cache
and the urls for which an underlying makeAjaxCall has been issued. -/
structure ReqState : Type where
  cache : List (String × JSVal)
  opsIssued : List String
deriving DecidableEq, Repr

/-- `cache[url]` lookup. -/
def cacheLookup : List (String × JSVal) → String → Option JSVal
  | [], _ => none
  | e :: es, u => if u = e.1 then some e.2 else cacheLookup es u

/-- JavaScript truthiness of a value: undefined, 0 and the empty string
are falsy. -/
def JSVal.truthy : JSVal → Bool
  | .undefined => false
  | .num n => n != 0
  | .str s => s != ""

/-- One call of the caching `request(url)`: the hit test is the JS
truthiness of the entry, `if (cache[url])` at src/03_async.js line 83 — a
missing entry and a falsy cached response alike take the miss branch. A
hit schedules the deferred timer and issues nothing; a miss issues one
underlying operation (the cache is not written until that operation
settles). -/
def request (st : ReqState) (url : String) : ReqState × Delivery :=
  match cacheLookup st.cache url with
  | some v =>
    if v.truthy then (st, .deferredTimer 0 v)
    else (⟨st.cache, url :: st.opsIssued⟩, .ajaxCallback url)
  | none => (⟨st.cache, url :: st.opsIssued⟩, .ajaxCallback url)

/-- The makeAjaxCall callback firing for `url` with `response`:
`cache[url] = response` and then the delivery `it.next(response)`. -/
def settleAjax (st : ReqState) (url : String) (response : JSVal) : ReqState :=
  ⟨(url, response) :: st.cache, st.opsIssued⟩

/-- Events observable around one `request` call inside the generator body:
the generator reaching its paused state at the `yield`, and the resumption
input being delivered by `it.next`. -/
inductive Ev : Type where
  | paused : Ev
  | delivered : JSVal → Ev
deriving DecidableEq, Repr

/-- Host scheduling of a delivery relative to the pause at the `yield`
enclosing the `request` call: a zero-delay timer and an ajax callback both
run only after the current synchronous execution has completed, so the
pause precedes the delivery; the callback delivery value is whatever the
operation later settles with (`o`). -/
def deliverySchedule : Delivery → Option JSVal → List Ev
  | .deferredTimer _ v, _ => [.paused, .delivered v]
  | .ajaxCallback _, some v => [.paused, .delivered v]
  | .ajaxCallback _, none => [.paused]

/-! ## The all combinator (spec §4.4, §3 CombinatorAggregate)

src/03_async.js uses the host builtin Promise.all (lines 197-204 and
265-280) and only describes its behaviour; the aggregate itself is not
code of the repository, so it is modelled from the spec: a results slot
array of length N, index-addressed, filled as children settle in whatever
completion order, resolved only once every child has settled. -/

/-- A settlement event: child number `i` (input-sequence position)
resolved with a value. Ordering of the event list is completion order. -/
abbrev SettleEv := Nat × JSVal

/-- Modelled from the spec: the results slot array of the
CombinatorAggregate after the given settlement events, index-addressed.
Each child settles at most once, so at most one event per index occurs. -/
def slotAfter : List SettleEv → Nat → Option JSVal
  | [], _ => none
  | e :: es, i => if i = e.1 then some e.2 else slotAfter es i

/-- Modelled from the spec: the aggregate of `all` over `n` children once
the given settlement events have arrived — resolved with the slots read
out in input-sequence order when every child has settled, still pending
otherwise. -/
def allAggregate (n : Nat) (events : List SettleEv) : Option (List JSVal) :=
  if (List.range n).all (fun i => (slotAfter events i).isSome)
  then some ((List.range n).map (fun i => (slotAfter events i).getD .undefined))
  else none

/-- The settlement events of children that each resolve, listed in
input-sequence order: child `k + j` resolves with the j-th value of `vs`. -/
def inOrderEvents : List JSVal → Nat → List SettleEv
  | [], _ => []
  | v :: vs, k => (k, v) :: inOrderEvents vs (k + 1)

example : allAggregate 2 [(1, .str "B"), (0, .str "A")]
  = some [.str "A", .str "B"] := rfl
example : allAggregate 2 [(1, .str "B")] = none := rfl

/-- Does this protocol result carry an exception out to the caller? -/
def NextRes.isError : NextRes → Bool
  | .threw _ => true
  | _ => false

/-! ## Theorems -/

/-- Claim C1: whenever an emitted item is an AsyncRequest-like waitable
that rejects, the Driver resumes the computation through the throw
continuation of the suspension point with the rejection reason, so the
nested try/catch of the body gets first chance: with the catch-guarded
main of src/03_async.js (lines 220-238), a rejection is delivered to the
catch branch and the returned future still resolves normally, while a
resolution delivers the value to the next continuation. -/
theorem C1_reject_delivered_via_throwInto :
    (∀ (e : JSVal) (kN kT : JSVal → Comp),
      driverRun (.pause (.waitable (.rejected e)) kN kT) = driverRun (kT e))
    ∧ (∀ e : JSVal, driverRun (mainErrHandled (.rejected e)) = .resolved e)
    ∧ (∀ v : JSVal, driverRun (mainErrHandled (.resolved v)) = .resolved v) :=
  ⟨fun _ _ _ => rfl, fun _ => rfl, fun _ => rfl⟩

/-- Lifted into Future: Completed maps to resolved, Failed to rejected. -/
def Future.ofResult : Except JSVal JSVal → Future
  | .ok v => .resolved v
  | .error e => .rejected e

/-- Claim C2: Driver.run returns a future, and for every computation that
future is resolved with the final value of a run reaching Completed, or
rejected with the error of a run reaching Failed without recovering. -/
theorem C2_run_resolves_terminal (c : Comp) :
    (∃ v, driverRun c = .resolved v ∧ Reaches c (.ok v))
    ∨ (∃ e, driverRun c = .rejected e ∧ Reaches c (.error e)) := by
  induction c with
  | ret v => exact Or.inl ⟨v, rfl, .completed v⟩
  | raise e => exact Or.inr ⟨e, rfl, .failed e⟩
  | pause em kN kT ihN ihT =>
    cases em with
    | immediate v =>
      rcases ihN v with ⟨w, h, hr⟩ | ⟨e, h, hr⟩
      · exact Or.inl ⟨w, by simpa [driverRun] using h, .onImmediate hr⟩
      · exact Or.inr ⟨e, by simpa [driverRun] using h, .onImmediate hr⟩
    | waitable o =>
      cases o with
      | resolved v =>
        rcases ihN v with ⟨w, h, hr⟩ | ⟨e, h, hr⟩
        · exact Or.inl ⟨w, by simpa [driverRun] using h, .onResolve hr⟩
        · exact Or.inr ⟨e, by simpa [driverRun] using h, .onResolve hr⟩
      | rejected e0 =>
        rcases ihT e0 with ⟨w, h, hr⟩ | ⟨e, h, hr⟩
        · exact Or.inl ⟨w, by simpa [driverRun] using h, .onReject hr⟩
        · exact Or.inr ⟨e, by simpa [driverRun] using h, .onReject hr⟩

/-- Claim C3, against the code as written: a generator that yields the
immediate (non-promise) value 42 once is resumed exactly once and never
completes, for any number of observed event-loop rounds — the misplaced
else in runGenerator (src/03_async.js lines 144-154) means no resumption
is scheduled for a yielded non-promise value — whereas under the control
flow the comments in that function describe, the same generator advances
to completion with one deferred resumption. -/
theorem C3_immediate_value_stalls (n : Nat) :
    runGenerator (n + 1) yieldsImmediate = ⟨1, 0⟩
    ∧ runGeneratorDocumented (n + 2) yieldsImmediate = ⟨2, 1⟩ :=
  ⟨rfl, rfl⟩

/-- After the generator is exhausted, runGenerator as written keeps
scheduling `iterate(ret.value)` rounds, each issuing one more `it.next`
call that reports done true. -/
theorem iterateAsWritten_terminal (k : Nat) (v : JSVal) :
    iterateAsWritten k .terminal v = ⟨k, k⟩ := by
  induction k generalizing v with
  | zero => rfl
  | succ k ih => simp [iterateAsWritten, doNext, ih]

/-- Claim C4, against the code as written: the one-suspension-point
generator yielding a resolving request (N = 1) should see exactly N + 1 =
2 resume calls and none after completion; instead runGenerator as written
issues one `it.next` call per observed round without bound, because the
misplaced else schedules another resumption after every done result —
whereas under the control flow its comments describe the run issues
exactly 2 calls. -/
theorem C4_resume_after_completion (n : Nat) :
    runGenerator (n + 3) yieldsOneRequest = ⟨n + 3, n + 2⟩
    ∧ runGeneratorDocumented (n + 3) yieldsOneRequest = ⟨2, 1⟩ := by
  constructor
  · simp [runGenerator, iterateAsWritten, doNext, advance, yieldsOneRequest,
      iterateAsWritten_terminal]
  · rfl

/-- Claim C8 counterexample: after genAsIterator (src/01_basics.js) has
reached its terminal state (six `next` calls: five yields and one done),
a seventh `next` is accepted and returns value undefined, done true — a
result, with no error of any kind raised — contradicting the claimed
InvalidStateError. -/
theorem C8_counterexample :
    runNexts (.unstarted genAsIterator) (List.replicate 7 .undefined)
      = [.yielded (.immediate (.num 1)), .yielded (.immediate (.num 2)),
         .yielded (.immediate (.num 3)), .yielded (.immediate (.num 4)),
         .yielded (.immediate (.num 5)), .finished .undefined, .finished .undefined]
    ∧ (doNext .terminal .undefined).2.isError = false :=
  ⟨rfl, rfl⟩

/-- Claim C8 amended: a resume on a computation that has reached a
terminal state is accepted and returns value undefined with done true,
raising no error, exactly as src/01_basics.js line 93 records. -/
theorem C8_amended_resume_after_done (v : JSVal) :
    doNext .terminal v = (.terminal, .finished .undefined)
    ∧ (doNext .terminal v).2.isError = false :=
  ⟨rfl, rfl⟩

/-- Claim C9: for...of consumption observes only the values emitted at
suspension points: the observed sequence is unchanged under replacing the
final return value (it is discarded), and iterating forOfLoop
(src/01_basics.js lines 130-145), which yields 1..5 and returns 6,
observes exactly 1,2,3,4,5 with 6 absent. -/
theorem C9_forOf_discards_final :
    (∀ (c : Comp) (w : JSVal), forOfCollect (replaceFinal c w) = forOfCollect c)
    ∧ forOfCollect forOfLoop
      = [.immediate (.num 1), .immediate (.num 2), .immediate (.num 3),
         .immediate (.num 4), .immediate (.num 5)]
    ∧ Item.immediate (.num 6) ∉ forOfCollect forOfLoop := by
  refine ⟨?_, rfl, by decide⟩
  intro c w
  induction c with
  | ret v => rfl
  | raise e => rfl
  | pause em kN kT ihN ihT => simp [replaceFinal, forOfCollect, ihN]

/-- Claim C10: on a cache hit — an entry that is present and passes the
JS truthiness test `if (cache[url])` — the caching request helper
(src/03_async.js lines 80-95) schedules a zero-delay timer carrying the
cached response and issues nothing else; under the host scheduling of a
timer the generator reaches its paused state before the delivery arrives,
never during the request call itself. -/
theorem C10_cache_hit_deferred (st : ReqState) (url : String) (v : JSVal)
    (h : cacheLookup st.cache url = some v) (htr : v.truthy = true) :
    (request st url).2 = .deferredTimer 0 v
    ∧ deliverySchedule (request st url).2 none = [.paused, .delivered v]
    ∧ (request st url).1 = st := by
  simp [request, h, htr, deliverySchedule]

/-- Claim C10 witness: a concrete cache hit with a truthy cached
response. -/
theorem C10_witness :
    (request ⟨[("K", .str "R")], []⟩ "K").2 = .deferredTimer 0 (.str "R")
    ∧ deliverySchedule (request ⟨[("K", .str "R")], []⟩ "K").2 none
      = [.paused, .delivered (.str "R")]
    ∧ (request ⟨[("K", .str "R")], []⟩ "K").1 = ⟨[("K", .str "R")], []⟩ :=
  C10_cache_hit_deferred ⟨[("K", .str "R")], []⟩ "K" (.str "R") rfl rfl

/-- Claim C6 counterexample: starting from an empty cache, a second
`request` with the same key "K" issued before the first settles triggers a
second underlying makeAjaxCall — two operations in total, not one — since
the cache entry is only written inside the settlement callback. -/
theorem C6_counterexample :
    ((request (request ⟨[], []⟩ "K").1 "K").1).opsIssued = ["K", "K"]
    ∧ ((request (request ⟨[], []⟩ "K").1 "K").1).opsIssued.length ≠ 1 :=
  ⟨rfl, by decide⟩

/-- Claim C6 amended: the caching helper stores only the settled response,
so a repeat call with key K that arrives before the first call settles
issues a second underlying operation; deduplication happens only after
settlement with a truthy response — once a call for K has settled with a
response passing the `if (cache[url])` truthiness test, a further call for
K issues no new underlying operation and delivers the cached response,
while a falsy settled response is requested again. -/
theorem C6_amended_dedupe_after_settle (st : ReqState) (url : String)
    (response : JSVal) (hmiss : cacheLookup st.cache url = none) :
    ((request st url).1.opsIssued = url :: st.opsIssued)
    ∧ ((request (request st url).1 url).1.opsIssued = url :: url :: st.opsIssued)
    ∧ (cacheLookup (settleAjax st url response).cache url = some response)
    ∧ (response.truthy = true →
        (request (settleAjax st url response) url).1.opsIssued = st.opsIssued
        ∧ (request (settleAjax st url response) url).2
          = .deferredTimer 0 response)
    ∧ (response.truthy = false →
        (request (settleAjax st url response) url).1.opsIssued
          = url :: st.opsIssued) := by
  refine ⟨?_, ?_, ?_, fun htr => ⟨?_, ?_⟩, fun hfal => ?_⟩ <;>
    simp_all [request, settleAjax, cacheLookup, hmiss]

/-- Claim C6 amended witness: key "K" from the empty cache, settled once
with the truthy response "R" (no further operation, deferred delivery) and
once with the falsy response "" (a new operation is issued). -/
theorem C6_amended_witness :
    ((request ⟨[], []⟩ "K").1.opsIssued = ["K"])
    ∧ ((request (request ⟨[], []⟩ "K").1 "K").1.opsIssued = ["K", "K"])
    ∧ (cacheLookup (settleAjax ⟨[], []⟩ "K" (.str "R")).cache "K"
        = some (.str "R"))
    ∧ ((request (settleAjax ⟨[], []⟩ "K" (.str "R")) "K").1.opsIssued = [])
    ∧ ((request (settleAjax ⟨[], []⟩ "K" (.str "R")) "K").2
        = .deferredTimer 0 (.str "R"))
    ∧ ((request (settleAjax ⟨[], []⟩ "K" (.str "")) "K").1.opsIssued
        = ["K"]) := by
  have h := C6_amended_dedupe_after_settle ⟨[], []⟩ "K" (.str "R") rfl
  have hf := C6_amended_dedupe_after_settle ⟨[], []⟩ "K" (.str "") rfl
  exact ⟨h.1, h.2.1, h.2.2.1, (h.2.2.2.1 rfl).1, (h.2.2.2.1 rfl).2,
    hf.2.2.2.2 rfl⟩

/-- The input-sequence positions of the in-order settlement events of `vs`
starting at child `k` are `k, k+1, ...`: each child occurs exactly once. -/
theorem map_fst_inOrderEvents (vs : List JSVal) (k : Nat) :
    (inOrderEvents vs k).map Prod.fst = List.range' k vs.length := by
  induction vs generalizing k with
  | nil => rfl
  | cons v vs ih => simp [inOrderEvents, List.range'_succ, ih]

/-- Child `k + j` settles with the j-th input value. -/
theorem mem_inOrderEvents_of_get (vs : List JSVal) (k j : Nat)
    (hj : j < vs.length) :
    (k + j, vs.get ⟨j, hj⟩) ∈ inOrderEvents vs k := by
  induction vs generalizing k j with
  | nil => simp at hj
  | cons v vs ih =>
    cases j with
    | zero => simp [inOrderEvents]
    | succ j =>
      have hj' : j < vs.length := by simpa using hj
      have hm := ih (k + 1) j hj'
      have harith : k + (j + 1) = (k + 1) + j := by omega
      simp only [inOrderEvents, List.mem_cons]
      right
      simpa [harith] using hm

/-- If child `i` settled with `v` and no child settled twice, the results
slot of `i` holds `v`, in whatever position of the completion order the
settlement occurred. -/
theorem slotAfter_eq_of_mem (es : List SettleEv) (i : Nat) (v : JSVal)
    (hmem : (i, v) ∈ es) (hnd : (es.map Prod.fst).Nodup) :
    slotAfter es i = some v := by
  induction es with
  | nil => simp at hmem
  | cons e es ih =>
    simp only [List.map_cons, List.nodup_cons] at hnd
    obtain ⟨hne, hnd'⟩ := hnd
    rcases List.mem_cons.mp hmem with heq | hmem'
    · simp [slotAfter, ← heq]
    · have hige : i ≠ e.1 := by
        intro hcontra
        exact hne (hcontra ▸ List.mem_map_of_mem Prod.fst hmem')
      simp [slotAfter, hige, ih hmem' hnd']

/-- Claim C5: when every child of `all` resolves, the aggregate resolves
with the children results in input-sequence order, for every completion
order (any permutation of the in-order settlement events). -/
theorem C5_all_input_order (vs : List JSVal) (events : List SettleEv)
    (h : events.Perm (inOrderEvents vs 0)) :
    allAggregate vs.length events = some vs := by
  have hnd : (events.map Prod.fst).Nodup := by
    have hp := h.map Prod.fst
    refine hp.nodup_iff.mpr ?_
    rw [map_fst_inOrderEvents]
    exact List.nodup_range' _ _
  have hslot : ∀ (i : Nat) (hi : i < vs.length),
      slotAfter events i = some (vs.get ⟨i, hi⟩) := by
    intro i hi
    refine slotAfter_eq_of_mem _ _ _ ?_ hnd
    have hm := mem_inOrderEvents_of_get vs 0 i hi
    rw [Nat.zero_add] at hm
    exact h.mem_iff.mpr hm
  have hall : (List.range vs.length).all
      (fun i => (slotAfter events i).isSome) = true := by
    rw [List.all_eq_true]
    intro i hi
    rw [List.mem_range] at hi
    simp [hslot i hi]
  rw [allAggregate, if_pos hall]
  congr 1
  refine List.ext_get (by simp) ?_
  intro n h1 h2
  have hn : n < vs.length := by simpa using h2
  simp [hslot n hn]

/-- Claim C5 witness: two children resolving with "A" and "B", the second
settling first, still aggregate to the input-order list. -/
theorem C5_witness :
    ([((1 : Nat), JSVal.str "B"), (0, JSVal.str "A")]).Perm
      (inOrderEvents [JSVal.str "A", JSVal.str "B"] 0)
    ∧ allAggregate 2 [(1, .str "B"), (0, .str "A")]
      = some [.str "A", .str "B"] :=
  ⟨by decide,
   C5_all_input_order [.str "A", .str "B"] [(1, .str "B"), (0, .str "A")]
     (by decide)⟩

/-- The six protocol calls made on iterator4 in src/README.md lines
112-119. -/
def secondFunctionInputs : List JSVal :=
  [.undefined, .str "X", .str "Y", .str "Z", .str "W", .str "v"]

/-- The golden trace recorded next to those calls. -/
def secondFunctionGolden : List NextRes :=
  [.yielded (.immediate (.num 1)), .yielded (.immediate (.num 2)),
   .yielded (.immediate (.num 3)), .yielded (.immediate (.num 4)),
   .yielded (.immediate (.num 5)), .finished .undefined]

/-- The golden trace of iterator5 in src/README.md lines 140-144, with the
delegated return value kept observable as the final value. -/
def pitcherGolden : List NextRes :=
  [.yielded (.immediate (.num 1)), .yielded (.immediate (.num 2)),
   .yielded (.immediate (.num 3)), .yielded (.immediate (.num 4)),
   .finished (.str "im catcher")]

/-- Claim C7: delegation is transparent — if the nested computation,
driven alone on the inputs `ins`, emits the items `t` and completes with
`v` leaving inputs `rest`, then the delegating computation driven on the
same inputs emits exactly `t` followed by whatever the outer remainder
emits, with the nested final value `v` becoming the resumption value of
the delegating point (the remainder `k` is resumed at `k v`); and the two
delegation examples of src/README.md reproduce their golden traces. -/
theorem C7_delegation_transparent (inner : Comp) (k : JSVal → Comp)
    (ins : List JSVal) (t : List Item) (v : JSVal) (rest : List JSVal)
    (h : observe inner ins = (t, some (.ok v), rest)) :
    observe (delegate inner k) ins
      = (t ++ (observe (k v) rest).1, (observe (k v) rest).2)
    ∧ runNexts (.unstarted secondFunction) secondFunctionInputs
      = secondFunctionGolden
    ∧ runNexts (.unstarted pitcher) (List.replicate 5 .undefined)
      = pitcherGolden := by
  refine ⟨?_, rfl, rfl⟩
  induction inner generalizing ins t with
  | ret w =>
    simp only [observe, Prod.mk.injEq, Option.some.injEq,
      Except.ok.injEq] at h
    obtain ⟨rfl, rfl, rfl⟩ := h
    simp [delegate]
  | raise e =>
    simp [observe] at h
  | pause em kN kT ihN ihT =>
    cases ins with
    | nil => simp [observe] at h
    | cons i ins' =>
      have hobs : observe (.pause em kN kT) (i :: ins')
          = (em :: (observe (kN i) ins').1, (observe (kN i) ins').2) := rfl
      rw [hobs] at h
      have ht : t = em :: (observe (kN i) ins').1 := (congrArg Prod.fst h).symm
      have h23 : (observe (kN i) ins').2 = (some (Except.ok v), rest) :=
        congrArg Prod.snd h
      have h' : observe (kN i) ins'
          = ((observe (kN i) ins').1, some (Except.ok v), rest) := by
        rw [← h23]
      have hd := ihN i ins' (observe (kN i) ins').1 h'
      subst ht
      simp [delegate, observe, hd]

/-- Claim C7 witness: delegating from pitcher to catcher, the catcher
trace is forwarded and its return value resumes the remainder of pitcher. -/
theorem C7_witness :
    observe (delegate catcher pitcherAfter) [.undefined, .undefined]
      = ([.immediate (.num 2), .immediate (.num 3)]
          ++ (observe (pitcherAfter (.str "im catcher")) []).1,
         (observe (pitcherAfter (.str "im catcher")) []).2)
    ∧ runNexts (.unstarted secondFunction) secondFunctionInputs
      = secondFunctionGolden
    ∧ runNexts (.unstarted pitcher) (List.replicate 5 .undefined)
      = pitcherGolden :=
  C7_delegation_transparent catcher pitcherAfter [.undefined, .undefined]
    [.immediate (.num 2), .immediate (.num 3)] (.str "im catcher") [] rfl

end ES6Gen
